import Mathlib

/-!
Verification development for the vfx-demo-pipe repository.

The repository is a Nuke plugin: an "Auto Track" tool driving the host's
CameraTracker node through a refinement loop (src/VfxPipe/nuke/tools/auto_track.py),
a host/PySide-version adapter (src/VfxPipe/utils/host.py), and a startup
bootstrap (src/VfxPipe/nuke/startup/init.py).

Modelling conventions, used throughout:
* The host application (Nuke / Maya / Houdini) is a closed API.  Every host
  call made by the code is modelled through an environment record whose
  fields return `Except String α`: `.error e` models the call raising a
  Python exception with message `e`, `.ok` models a normal return.
* Python floats are modelled as exact rationals (`Rat`); the constants that
  the code subtracts (`0.25`) and multiplies (`0.2`, `100.0/total`, ...) are
  exact in this model.
* Python ints are modelled as `Int` (thresholds) or `Nat` (counters).
* Logged warnings (`logger.warning(...)`) are recorded as structured
  `WarnKind` values; `logger.info`/`logger.debug` calls are pure logging and
  are not modelled.  Qt signal emissions (`progress_update`,
  `tracking_complete`, `error_occurred`) are recorded as `UEvent` values.
  The human-readable float formatting inside progress / log strings is not
  modelled; the underlying numeric payloads are.
-/

/- ## Host adapter: src/VfxPipe/utils/host.py -/

/-- Environment for `host.py`: which DCC modules are importable, and what the
version-probing host calls return.  A `.error e` value models the version
lookup raising an exception with text `e` (for Nuke this covers both the
`NUKE_VERSION_MAJOR` attribute path and the `NUKE_VERSION_STRING` parse
fallback failing). -/
structure PyEnv where
  hasNuke : Bool
  hasMaya : Bool
  hasHou : Bool
  hasBpy : Bool
  nukeMajor : Except String Int
  mayaVersion : Except String Int
  houMajor : Except String Int

/-- Embedding of `getDcc()` (host.py lines 9-50): probe each host module in
order, first importable module wins, otherwise `none` (standalone). -/
def getDcc (env : PyEnv) : Option String :=
  if env.hasNuke then some "nuke"
  else if env.hasMaya then some "maya"
  else if env.hasHou then some "houdini"
  else if env.hasBpy then some "blender"
  else none

/-- Embedding of `getPySideVersion(dcc=None)` (host.py lines 53-143).
`dccArg = none` models the default argument (auto-detect via `getDcc`).
Returns the PySide major version, or raises (`.error`) when a
version-dependent host is selected but its version cannot be read
(`RuntimeError(f"Failed to detect ... version: {e}")`). -/
def getPySideVersion (env : PyEnv) (dccArg : Option String) : Except String Nat :=
  let dcc := match dccArg with
    | none => getDcc env
    | some d => some d
  if dcc = some "nuke" then
    match env.nukeMajor with
    | .ok major => if major ≥ 16 then .ok 6 else .ok 2
    | .error e => .error ("Failed to detect Nuke version: " ++ e)
  else if dcc = some "maya" then
    match env.mayaVersion with
    | .ok v => if v ≥ 2025 then .ok 6 else .ok 2
    | .error e => .error ("Failed to detect Maya version: " ++ e)
  else if dcc = some "houdini" then
    match env.houMajor with
    | .ok v => if v ≥ 20 then .ok 6 else .ok 2
    | .error e => .error ("Failed to detect Houdini version: " ++ e)
  else
    .ok 6

/- ## Bootstrap: src/VfxPipe/nuke/startup/init.py -/

/-- Result of importing one tool module during discovery
(init.py lines 107-128): the import raises, or the module lacks a
`register()` function, or `register()` returns tool info (its
`menu_name` and whether an `action` is present). -/
inductive ToolLoad
  | importError
  | noRegister
  | registered (menuName : String) (hasAction : Bool)
deriving DecidableEq

/-- Environment for the bootstrap: the tool module names found by the
directory glob, and what importing each of them yields. -/
structure InitEnv where
  toolModules : List String
  load : String → ToolLoad

/-- One entry of the module-level `_registered_tools` list. -/
structure RegisteredTool where
  name : String
  menuName : String
  hasAction : Bool
deriving DecidableEq

/-- The module-level mutable state of init.py: `_initialized` and
`_registered_tools`. -/
structure InitState where
  initialized : Bool
  registeredTools : List RegisteredTool
deriving DecidableEq

/-- The observable actions the `initialize()` entry point performs.  The
bodies of `validate_environment` and `setup_menus` only print, probe the
filesystem and mutate host menus, so each is recorded as a single action;
`discover_and_register_tools` additionally mutates `_registered_tools`,
which is modelled precisely by `discoverAndRegisterTools`. -/
inductive InitAction
  | noticeAlreadyInitialized
  | validateEnvironment
  | discoverTools
  | setupMenus
deriving DecidableEq

/-- Embedding of `discover_and_register_tools()` (init.py lines 79-132):
append to `_registered_tools` one entry per discovered module whose import
succeeds and which has a `register()` function; import errors and missing
`register()` are logged and skipped. -/
def discoverAndRegisterTools (env : InitEnv) (tools : List RegisteredTool) :
    List RegisteredTool :=
  tools ++ env.toolModules.filterMap fun nm =>
    match env.load nm with
    | .registered m a => some ⟨nm, m, a⟩
    | _ => none

/-- Embedding of `initialize()` (init.py lines 22-42; the Lean keyword
forces the different name).  If `_initialized` is set, print the
already-initialized notice and return; otherwise validate the environment,
discover and register tools, set up menus, and set `_initialized`. -/
def initMain (env : InitEnv) (s : InitState) : InitState × List InitAction :=
  if s.initialized then
    (s, [.noticeAlreadyInitialized])
  else
    ({ initialized := true,
       registeredTools := discoverAndRegisterTools env s.registeredTools },
     [.validateEnvironment, .discoverTools, .setupMenus])

/- ## Claims C7, C8, C9 -/

/-- C7: the UI-toolkit version lookup is a pure table over host kind and
major version: for nuke, major < 16 yields 2 and major ≥ 16 yields 6; for
maya, version < 2025 yields 2 and otherwise 6; for an unknown host or no
host it yields the default 6. -/
theorem claim7_pyside_table (env : PyEnv) :
    (∀ m : Int, env.nukeMajor = .ok m →
      getPySideVersion env (some "nuke") = .ok (if m < 16 then 2 else 6)) ∧
    (∀ m : Int, env.mayaVersion = .ok m →
      getPySideVersion env (some "maya") = .ok (if m < 2025 then 2 else 6)) ∧
    (∀ d : String, d ≠ "nuke" → d ≠ "maya" → d ≠ "houdini" →
      getPySideVersion env (some d) = .ok 6) ∧
    (getDcc env = none → getPySideVersion env none = .ok 6) := by
  refine ⟨?_, ?_, ?_, ?_⟩
  · intro m hm
    by_cases h : m < 16
    · simp [getPySideVersion, hm, h, not_le.mpr h]
    · simp [getPySideVersion, hm, h, le_of_not_lt h]
  · intro m hm
    by_cases h : m < 2025
    · simp [getPySideVersion, hm, h, not_le.mpr h]
    · simp [getPySideVersion, hm, h, le_of_not_lt h]
  · intro d h1 h2 h3
    simp [getPySideVersion, h1, h2, h3]
  · intro h
    simp [getPySideVersion, h]

/-- Concrete witness for C7: a Nuke 15 host resolves to PySide2 and a
Nuke 16 host resolves to PySide6. -/
def envNuke15 : PyEnv :=
  ⟨true, false, false, false, .ok 15, .error "no maya", .error "no hou"⟩

/-- Concrete PyEnv for a Nuke 16 host. -/
def envNuke16 : PyEnv :=
  ⟨true, false, false, false, .ok 16, .error "no maya", .error "no hou"⟩

theorem claim7_witness :
    getPySideVersion envNuke15 (some "nuke") = .ok 2 ∧
    getPySideVersion envNuke16 (some "nuke") = .ok 6 := by
  constructor
  · have h := (claim7_pyside_table envNuke15).1 15 rfl
    simpa using h
  · have h := (claim7_pyside_table envNuke16).1 16 rfl
    simpa using h

/-- C8: whenever a version-dependent host is selected (explicitly or by
auto-detection) but its version cannot be read, the lookup raises the
`RuntimeError` to the caller; it does not swallow the failure and does not
return a default toolkit version. -/
theorem claim8_version_error (env : PyEnv) :
    (∀ e, env.nukeMajor = .error e →
      getPySideVersion env (some "nuke") =
        .error ("Failed to detect Nuke version: " ++ e)) ∧
    (∀ e, env.mayaVersion = .error e →
      getPySideVersion env (some "maya") =
        .error ("Failed to detect Maya version: " ++ e)) ∧
    (∀ e, env.houMajor = .error e →
      getPySideVersion env (some "houdini") =
        .error ("Failed to detect Houdini version: " ++ e)) ∧
    (∀ e, env.hasNuke = true → env.nukeMajor = .error e →
      getPySideVersion env none =
        .error ("Failed to detect Nuke version: " ++ e)) := by
  refine ⟨?_, ?_, ?_, ?_⟩
  · intro e he
    simp [getPySideVersion, he]
  · intro e he
    simp [getPySideVersion, he]
  · intro e he
    simp [getPySideVersion, he]
  · intro e hn he
    have hd : getDcc env = some "nuke" := by simp [getDcc, hn]
    simp [getPySideVersion, hd, he]

/-- Concrete witness for C8: a detected Nuke host with unreadable version
makes the lookup raise. -/
def envNukeBroken : PyEnv :=
  ⟨true, false, false, false, .error "module has no attribute",
   .error "no maya", .error "no hou"⟩

theorem claim8_witness :
    envNukeBroken.nukeMajor = .error "module has no attribute" ∧
    getPySideVersion envNukeBroken (some "nuke") =
      .error ("Failed to detect Nuke version: " ++ "module has no attribute") :=
  ⟨rfl, (claim8_version_error envNukeBroken).1 "module has no attribute" rfl⟩

/-- C9: `initialize()` is idempotent.  After one call, the state has the
initialized flag set, and every subsequent call (under any environment)
returns the state unchanged and performs only the logged
already-initialized notice: no environment validation, no tool discovery,
no menu setup, and no change to the registered-tools list. -/
theorem claim9_idempotent (env env2 : InitEnv) (s : InitState) :
    (initMain env s).1.initialized = true ∧
    initMain env2 (initMain env s).1 =
      ((initMain env s).1, [InitAction.noticeAlreadyInitialized]) := by
  unfold initMain
  by_cases h : s.initialized
  · simp [h]
  · simp [h]

/- ## Auto Track tool: src/VfxPipe/nuke/tools/auto_track.py -/

/-- Host-API calls made by the worker, in the order they occur; each value
is one marshalled main-thread round trip (or guarded read).  Value-carrying
constructors record the data the call writes or the read index it uses:
`readRMSE n k` is a read of the `solveRMSE` knob of node `n` after `k`
update-solve operations of the current per-node run (the host solver is
deterministic between solves, so the k-th read always yields the same
value); `deleteRejected` / `deleteInvalid` each fold in the preceding
auto-confirm `setValue` the code performs on the same knob. -/
inductive HCall
  | toNode (n : String)
  | showPanel (n : String)
  | tclPlate (n : String)
  | trackFeatures (n : String)
  | readTracks (n : String)
  | solveCamera (n : String)
  | readRMSE (n : String) (k : Nat)
  | setMinLenThresh (n : String) (v : Int)
  | setMaxRMSEThresh (n : String) (v : Rat)
  | setMaxErrThresh (n : String) (v : Rat)
  | deleteRejected (n : String)
  | deleteInvalid (n : String)
  | readRefFrames (n : String)
  | setSelectedFrames (n : String)
  | doUpdateSolve (n : String)
  | allCameras
  | createCamera (n : String)
  | renameCamera (cam : String) (newName : String)
deriving DecidableEq

/-- Qt signals emitted by the worker: `progress_update` (percentage payload;
the message and detail strings are not modelled), `tracking_complete`
(success flag and message), `error_occurred` (title and message). -/
inductive UEvent
  | progress (pct : Rat)
  | complete (success : Bool) (msg : String)
  | error (title : String) (msg : String)
deriving DecidableEq

/-- Structured record of each `logger.warning` call site in the worker. -/
inductive WarnKind
  | cancelledByUser
  | noPlateName (n : String)
  | noTrackCount (n : String)
  | noInitialRMSE (n : String)
  | targetNotAchieved (finalRmse target : Rat)
  | noNewCamera
deriving DecidableEq

/-- Observable worker state threaded through the run: `tick` counts the
`self.cancelled` checks performed so far, `trace` the host calls issued,
`events` the Qt signals emitted, `warns` the logged warnings, and `cams`
the names of the `Camera3` nodes currently in the scene. -/
structure Cfg where
  tick : Nat
  trace : List HCall
  events : List UEvent
  warns : List WarnKind
  cams : List String
deriving DecidableEq

/-- Host environment for the worker.  Each field gives the outcome of the
corresponding host call: `.error e` models the call raising a Python
exception with message `e`.  `plate` and `trackCountOk` are the two reads
the code wraps in a local try/except (their failure is swallowed);
`readRMSE n k` is the `solveRMSE` value of node `n` after `k` update-solve
operations; `createCam n cams` returns the scene camera set after
`_create_camera` runs with scene cameras `cams` (its internal knob wiring,
link or bake, affects no observable of the claims and is folded into this
single scene mutation). -/
structure BHost where
  initialCams : List String
  nodeOk : String → Bool
  showPanel : String → Except String Unit
  plate : String → Except Unit String
  trackFeatures : String → Except String Unit
  trackCountOk : String → Bool
  solveCamera : String → Except String Unit
  readRMSE : String → Nat → Except String Rat
  setMinLen : String → Int → Except String Unit
  setMaxRMSE : String → Rat → Except String Unit
  setMaxErr : String → Rat → Except String Unit
  deleteRejected : String → Except String Unit
  deleteInvalid : String → Except String Unit
  readRefFrames : String → Except String Unit
  setSelectedFrames : String → Except String Unit
  doUpdateSolve : String → Except String Unit
  createCam : String → List String → Except String (List String)
  renameCam : String → String → Except String Unit

/-- The `params` dictionary handed to `TrackingWorker`. -/
structure TrackParams where
  nodes : List String
  minLen : Int
  maxTrackError : Rat
  maxError : Rat
  controlError : Rat
  max_iter : Nat
  cameraPrefix : String
  linkOutput : Bool

/-- The local variables of `_update_solve_recursive`'s while loop. -/
structure LoopVars where
  minLen : Int
  maxTrackError : Rat
  maxError : Rat
  iteration : Nat
  current : Rat
deriving DecidableEq

/-- The `self.cancelled` flag as seen by the check numbered `t` (0-based,
in order of execution).  `cancel()` sets the flag exactly once and it is
never cleared, so the flag is modelled by the check index `c` from which it
reads true: `cp = some c` means the user's `cancel()` call lands between
check `c - 1` and check `c`. -/
def isCanc (cp : Option Nat) (t : Nat) : Bool :=
  match cp with
  | none => false
  | some c => c ≤ t

/-- One `if self.cancelled:` check: reads the flag and advances the check
counter. -/
def checkCancel (cp : Option Nat) (cfg : Cfg) : Bool × Cfg :=
  (isCanc cp cfg.tick, { cfg with tick := cfg.tick + 1 })

/-- Issue one unit-returning host call: the call is recorded on the trace
(it happens even when it raises), then its outcome is propagated. -/
def hostOp (cfg : Cfg) (h : HCall) (r : Except String Unit) :
    Except (String × Cfg) Cfg :=
  match r with
  | .error e => .error (e, { cfg with trace := cfg.trace ++ [h] })
  | .ok _ => .ok { cfg with trace := cfg.trace ++ [h] }

/-- Embedding of `_update_solve` (auto_track.py lines 310-337): read the
reference frames, write the animated `selectedFrames` knob, execute
`doUpdateSolve`.  The frame values flow only into the knob write and are
not otherwise observable, so they are elided from the call records. -/
def updateSolveStep (env : BHost) (n : String) (cfg : Cfg) :
    Except (String × Cfg) Cfg :=
  match hostOp cfg (.readRefFrames n) (env.readRefFrames n) with
  | .error ec => .error ec
  | .ok cfg =>
  match hostOp cfg (.setSelectedFrames n) (env.setSelectedFrames n) with
  | .error ec => .error ec
  | .ok cfg =>
  hostOp cfg (.doUpdateSolve n) (env.doUpdateSolve n)

/-- Embedding of the while loop of `_update_solve_recursive`
(auto_track.py lines 362-419).  The source condition is
`current_rmse >= controlError and iteration < max_iter`; here `rem`
carries `mi - v.iteration`, so `iteration < max_iter` is exactly the
`rem + 1` pattern and the loop is structurally recursive.  The returned
`Bool` is true when the body's `if self.cancelled: return` fired (which in
the source exits `_update_solve_recursive` without the final status
block). -/
def refineLoop (env : BHost) (cp : Option Nat) (n : String) (ce : Rat)
    (mi : Nat) (base range : Rat) :
    Nat → LoopVars → Cfg → Except (String × Cfg) (LoopVars × Cfg × Bool)
  | 0, v, cfg => .ok (v, cfg, false)
  | rem + 1, v, cfg =>
    if ce ≤ v.current then
      if isCanc cp cfg.tick then .ok (v, { cfg with tick := cfg.tick + 1 }, true)
      else
        let cfg := { cfg with tick := cfg.tick + 1 }
        match hostOp cfg (.setMinLenThresh n v.minLen) (env.setMinLen n v.minLen) with
        | .error ec => .error ec
        | .ok cfg =>
        match hostOp cfg (.setMaxRMSEThresh n v.maxTrackError) (env.setMaxRMSE n v.maxTrackError) with
        | .error ec => .error ec
        | .ok cfg =>
        match hostOp cfg (.setMaxErrThresh n v.maxError) (env.setMaxErr n v.maxError) with
        | .error ec => .error ec
        | .ok cfg =>
        match hostOp cfg (.deleteRejected n) (env.deleteRejected n) with
        | .error ec => .error ec
        | .ok cfg =>
        match hostOp cfg (.deleteInvalid n) (env.deleteInvalid n) with
        | .error ec => .error ec
        | .ok cfg =>
        match updateSolveStep env n cfg with
        | .error ec => .error ec
        | .ok cfg =>
        match env.readRMSE n (v.iteration + 1) with
        | .error e => .error (e, { cfg with trace := cfg.trace ++ [.readRMSE n (v.iteration + 1)] })
        | .ok newRmse =>
        let cfg := { cfg with trace := cfg.trace ++ [HCall.readRMSE n (v.iteration + 1)] }
        let cfg := { cfg with events := cfg.events ++
          [UEvent.progress (base + ((v.iteration : Rat) / (mi : Rat)) * range)] }
        refineLoop env cp n ce mi base range rem
          ⟨v.minLen + 1, v.maxTrackError - 0.25, v.maxError - 0.25,
           v.iteration + 1, newRmse⟩ cfg
    else .ok (v, cfg, false)

/-- The host-call block of `k` consecutive completed loop iterations
starting from thresholds `(m, t, e)` at iteration index `it`: thresholds
pushed, filter deletes, update-solve, and the end-of-iteration RMSE read. -/
def refineTrace (n : String) (m : Int) (t e : Rat) (it : Nat) :
    Nat → List HCall
  | 0 => []
  | k + 1 =>
    [.setMinLenThresh n m, .setMaxRMSEThresh n t, .setMaxErrThresh n e,
     .deleteRejected n, .deleteInvalid n, .readRefFrames n,
     .setSelectedFrames n, .doUpdateSolve n, .readRMSE n (it + 1)]
    ++ refineTrace n (m + 1) (t - 0.25) (e - 0.25) (it + 1) k

/-- The progress events emitted by `k` consecutive completed loop
iterations starting at iteration index `it`. -/
def loopProgressEvents (base range : Rat) (mi : Nat) (it : Nat) :
    Nat → List UEvent
  | 0 => []
  | k + 1 =>
    .progress (base + ((it : Rat) / (mi : Rat)) * range)
    :: loopProgressEvents base range mi (it + 1) k

/-- Embedding of `_update_solve_recursive` (auto_track.py lines 339-437):
read the current RMSE, run the while loop, and unless the loop was exited
by a cancellation check, read the final RMSE and report the final status
(a logged warning when the target RMSE was not achieved) plus a final
progress event. -/
def updateSolveRecursive (env : BHost) (cp : Option Nat) (p : TrackParams)
    (n : String) (base range : Rat) (cfg : Cfg) :
    Except (String × Cfg) Cfg :=
  match env.readRMSE n 0 with
  | .error e => .error (e, { cfg with trace := cfg.trace ++ [.readRMSE n 0] })
  | .ok r0 =>
  let cfg := { cfg with trace := cfg.trace ++ [HCall.readRMSE n 0] }
  match refineLoop env cp n p.controlError p.max_iter base range p.max_iter
      ⟨p.minLen, p.maxTrackError, p.maxError, 0, r0⟩ cfg with
  | .error ec => .error ec
  | .ok (_, cfg, true) => .ok cfg
  | .ok (v, cfg, false) =>
  match env.readRMSE n v.iteration with
  | .error e => .error (e, { cfg with trace := cfg.trace ++ [.readRMSE n v.iteration] })
  | .ok finalRmse =>
  let cfg := { cfg with trace := cfg.trace ++ [HCall.readRMSE n v.iteration] }
  let cfg :=
    if finalRmse < p.controlError then cfg
    else { cfg with warns := cfg.warns ++ [WarnKind.targetNotAchieved finalRmse p.controlError] }
  .ok { cfg with events := cfg.events ++ [UEvent.progress (base + range)] }

/-- Exception propagation for a statement sequence: run the continuation on
the state of a normal return, propagate a raise unchanged (this is exactly
Python's exception unwinding between the statements of
`_process_camera_tracker`). -/
def andThen (g : Except (String × Cfg) Cfg)
    (f : Cfg → Except (String × Cfg) Cfg) : Except (String × Cfg) Cfg :=
  match g with
  | .error ec => .error ec
  | .ok c => f c

/-- Embedding of step 4 of `_process_camera_tracker` (auto_track.py lines
228-262): snapshot the scene's `Camera3` nodes, run `_create_camera`,
snapshot again; the new camera is the set difference (the Python
`set(...) - set(...)`; scene node lists hold distinct names, and
`list(new_cameras)[0]`'s arbitrary choice is modelled as the first
after-snapshot camera not present before).  If one exists it is renamed to
`camera_prefix + plate_name` and a final progress event is emitted,
otherwise the no-new-camera warning is logged. -/
def createAndRename (env : BHost) (p : TrackParams) (n plate : String)
    (base range : Rat) (cfg : Cfg) : Except (String × Cfg) Cfg :=
  let camsBefore := cfg.cams
  let cfg := { cfg with trace := cfg.trace ++ [HCall.allCameras] }
  match env.createCam n camsBefore with
  | .error e => .error (e, { cfg with trace := cfg.trace ++ [HCall.createCamera n] })
  | .ok camsAfter =>
  let cfg := { cfg with trace := cfg.trace ++ [HCall.createCamera n], cams := camsAfter }
  let cfg := { cfg with trace := cfg.trace ++ [HCall.allCameras] }
  match camsAfter.filter (fun c => !(camsBefore.contains c)) with
  | [] => .ok { cfg with warns := cfg.warns ++ [WarnKind.noNewCamera] }
  | cam :: _ =>
    let finalName := p.cameraPrefix ++ plate
    match env.renameCam cam finalName with
    | .error e => .error (e, { cfg with trace := cfg.trace ++ [HCall.renameCamera cam finalName] })
    | .ok _ =>
      .ok { cfg with
              trace := cfg.trace ++ [HCall.renameCamera cam finalName],
              cams := cfg.cams.map (fun c => if c = cam then finalName else c),
              events := cfg.events ++ [UEvent.progress (base + range)] }

/-- Embedding of `_process_camera_tracker` (auto_track.py lines 122-262):
show the control panel; read the plate name (guarded: on failure warn and
fall back to the node name); then the four steps, each preceded by an
`if self.cancelled: return` check and a progress event: feature tracking
(with guarded track-count read), camera solve (with guarded initial-RMSE
read), recursive solve refinement, and camera creation. -/
def processCameraTracker (env : BHost) (cp : Option Nat) (p : TrackParams)
    (n : String) (base range : Rat) (cfg : Cfg) : Except (String × Cfg) Cfg :=
  match hostOp cfg (.showPanel n) (env.showPanel n) with
  | .error ec => .error ec
  | .ok cfg =>
  let pr := match env.plate n with
    | .ok s => (s, { cfg with trace := cfg.trace ++ [HCall.tclPlate n] })
    | .error _ => (n, { cfg with trace := cfg.trace ++ [HCall.tclPlate n],
                                 warns := cfg.warns ++ [WarnKind.noPlateName n] })
  let plate := pr.1
  let cfg := pr.2
  let ck := checkCancel cp cfg
  if ck.1 then .ok ck.2 else
  let cfg := { ck.2 with events := ck.2.events ++ [UEvent.progress (base + range * 0.2)] }
  match hostOp cfg (.trackFeatures n) (env.trackFeatures n) with
  | .error ec => .error ec
  | .ok cfg =>
  let cfg :=
    if env.trackCountOk n then { cfg with trace := cfg.trace ++ [HCall.readTracks n] }
    else { cfg with trace := cfg.trace ++ [HCall.readTracks n],
                    warns := cfg.warns ++ [WarnKind.noTrackCount n] }
  let ck := checkCancel cp cfg
  if ck.1 then .ok ck.2 else
  let cfg := { ck.2 with events := ck.2.events ++ [UEvent.progress (base + range * 0.4)] }
  match hostOp cfg (.solveCamera n) (env.solveCamera n) with
  | .error ec => .error ec
  | .ok cfg =>
  let cfg :=
    match env.readRMSE n 0 with
    | .ok _ => { cfg with trace := cfg.trace ++ [HCall.readRMSE n 0] }
    | .error _ => { cfg with trace := cfg.trace ++ [HCall.readRMSE n 0],
                             warns := cfg.warns ++ [WarnKind.noInitialRMSE n] }
  let ck := checkCancel cp cfg
  if ck.1 then .ok ck.2 else
  let cfg := { ck.2 with events := ck.2.events ++ [UEvent.progress (base + range * 0.5)] }
  andThen (updateSolveRecursive env cp p n (base + range * 0.5) (range * 0.3) cfg)
    fun cfg =>
      let ck := checkCancel cp cfg
      if ck.1 then .ok ck.2 else
      let cfg := { ck.2 with events := ck.2.events ++
        [UEvent.progress (base + range * 0.9)] }
      createAndRename env p n plate base range cfg

/-- Embedding of the per-node loop of `TrackingWorker.run` (auto_track.py
lines 61-116).  At each node: check the cancellation flag (if set, log the
warning and emit `tracking_complete(False, "Tracking cancelled by user")`);
resolve the node (failure emits the Node Error event and stops); emit the
node progress event; process the node (an escaping exception emits the
per-node error event and stops).  When the list is exhausted, emit
`tracking_complete(True, ...)`. -/
def runNodes (env : BHost) (cp : Option Nat) (p : TrackParams) (total : Nat) :
    Nat → List String → Cfg → Cfg
  | _, [], cfg =>
    { cfg with events := cfg.events ++
        [UEvent.complete true
          ("Successfully processed " ++ toString total ++ " camera tracker(s)")] }
  | idx, n :: rest, cfg =>
    let ck := checkCancel cp cfg
    if ck.1 then
      { ck.2 with warns := ck.2.warns ++ [WarnKind.cancelledByUser],
                  events := ck.2.events ++
                    [UEvent.complete false "Tracking cancelled by user"] }
    else
      let cfg := { ck.2 with trace := ck.2.trace ++ [HCall.toNode n] }
      if env.nodeOk n then
        let base : Rat := ((idx : Rat) / (total : Rat)) * 100
        let cfg := { cfg with events := cfg.events ++ [UEvent.progress base] }
        match processCameraTracker env cp p n base (100 / (total : Rat)) cfg with
        | .error ec =>
          { ec.2 with events := ec.2.events ++
              [UEvent.error ("Error processing " ++ n)
                ("Failed to process camera tracker:\n\n" ++ ec.1)] }
        | .ok cfg => runNodes env cp p total (idx + 1) rest cfg
      else
        { cfg with events := cfg.events ++
            [UEvent.error "Node Error" ("Node " ++ n ++ " not found")] }

/-- Embedding of `TrackingWorker.run` (auto_track.py lines 49-120): process
the node list from a fresh state.  The enclosing outer try/except only
guards the bookkeeping around the loop (which cannot raise in this model);
every exception path inside the loop is handled by the inner handlers
modelled in `runNodes`. -/
def runWorker (env : BHost) (cp : Option Nat) (p : TrackParams) : Cfg :=
  runNodes env cp p p.nodes.length 0 p.nodes ⟨0, [], [], [], env.initialCams⟩

/-- Whether an event list contains an `error_occurred` emission. -/
def hasErrorEvent (l : List UEvent) : Bool :=
  l.any fun ev => match ev with
    | .error _ _ => true
    | _ => false

/-- Whether an event list contains a `tracking_complete(True, _)` emission. -/
def hasTrueComplete (l : List UEvent) : Bool :=
  l.any fun ev => match ev with
    | .complete true _ => true
    | _ => false

/-- Whether an event list contains a `tracking_complete(False, _)` emission. -/
def hasFalseComplete (l : List UEvent) : Bool :=
  l.any fun ev => match ev with
    | .complete false _ => true
    | _ => false

/-- Whether an event is a progress emission. -/
def isProgress (ev : UEvent) : Bool :=
  match ev with
  | .progress _ => true
  | _ => false

/- ## Loop lemmas -/

/-- Invariant of every completed (non-raising) run of the while loop: the
ending variables and the host calls pushed are determined by the number of
completed iterations `k` and the entry variables alone. -/
theorem refineLoop_ok_spec (env : BHost) (cp : Option Nat) (n : String)
    (ce : Rat) (mi : Nat) (base range : Rat) :
    ∀ (rem : Nat) (v : LoopVars) (cfg : Cfg) (v2 : LoopVars) (cfg2 : Cfg) (b : Bool),
      refineLoop env cp n ce mi base range rem v cfg = .ok (v2, cfg2, b) →
      ∃ k : Nat,
        v2.iteration = v.iteration + k ∧
        v2.minLen = v.minLen + k ∧
        v2.maxTrackError = v.maxTrackError - k * 0.25 ∧
        v2.maxError = v.maxError - k * 0.25 ∧
        cfg2.trace = cfg.trace ++
          refineTrace n v.minLen v.maxTrackError v.maxError v.iteration k := by
  intro rem
  induction rem with
  | zero =>
    intro v cfg v2 cfg2 b h
    simp only [refineLoop, Except.ok.injEq, Prod.mk.injEq] at h
    obtain ⟨hv, hc, -⟩ := h
    refine ⟨0, ?_, ?_, ?_, ?_, ?_⟩ <;> simp [← hv, ← hc, refineTrace]
  | succ rem ih =>
    intro v cfg v2 cfg2 b h
    simp only [refineLoop] at h
    by_cases hce : ce ≤ v.current
    · rw [if_pos hce] at h
      cases hcanc : isCanc cp cfg.tick with
      | true =>
        simp only [hcanc, if_pos] at h
        simp only [Except.ok.injEq, Prod.mk.injEq] at h
        obtain ⟨hv, hc, -⟩ := h
        refine ⟨0, ?_, ?_, ?_, ?_, ?_⟩ <;> simp [← hv, ← hc, refineTrace]
      | false =>
        simp only [hcanc, Bool.false_eq_true, if_false] at h
        cases hx1 : env.setMinLen n v.minLen with
        | error e => simp [hostOp, hx1] at h
        | ok u1 =>
        cases hx2 : env.setMaxRMSE n v.maxTrackError with
        | error e => simp [hostOp, hx1, hx2] at h
        | ok u2 =>
        cases hx3 : env.setMaxErr n v.maxError with
        | error e => simp [hostOp, hx1, hx2, hx3] at h
        | ok u3 =>
        cases hx4 : env.deleteRejected n with
        | error e => simp [hostOp, hx1, hx2, hx3, hx4] at h
        | ok u4 =>
        cases hx5 : env.deleteInvalid n with
        | error e => simp [hostOp, hx1, hx2, hx3, hx4, hx5] at h
        | ok u5 =>
        cases hx6 : env.readRefFrames n with
        | error e => simp [hostOp, updateSolveStep, hx1, hx2, hx3, hx4, hx5, hx6] at h
        | ok u6 =>
        cases hx7 : env.setSelectedFrames n with
        | error e => simp [hostOp, updateSolveStep, hx1, hx2, hx3, hx4, hx5, hx6, hx7] at h
        | ok u7 =>
        cases hx8 : env.doUpdateSolve n with
        | error e => simp [hostOp, updateSolveStep, hx1, hx2, hx3, hx4, hx5, hx6, hx7, hx8] at h
        | ok u8 =>
        cases hx9 : env.readRMSE n (v.iteration + 1) with
        | error e =>
          simp [hostOp, updateSolveStep, hx1, hx2, hx3, hx4, hx5, hx6, hx7, hx8, hx9] at h
        | ok newRmse =>
        simp only [hostOp, updateSolveStep, hx1, hx2, hx3, hx4, hx5, hx6, hx7, hx8, hx9] at h
        obtain ⟨k, h1, h2, h3, h4, h5⟩ := ih _ _ _ _ _ h
        refine ⟨k + 1, ?_, ?_, ?_, ?_, ?_⟩
        · simp only at h1
          omega
        · simp only at h2
          rw [h2]
          push_cast
          ring
        · simp only at h3
          rw [h3]
          push_cast
          ring
        · simp only at h4
          rw [h4]
          push_cast
          ring
        · simp only at h5
          rw [h5]
          simp [refineTrace, List.append_assoc]
    · rw [if_neg hce] at h
      simp only [Except.ok.injEq, Prod.mk.injEq] at h
      obtain ⟨hv, hc, -⟩ := h
      refine ⟨0, ?_, ?_, ?_, ?_, ?_⟩ <;> simp [← hv, ← hc, refineTrace]

deriving instance DecidableEq for Except

/-- C1: for every completed run of the refinement loop (entered, as in the
source, at iteration 0 with the parameter thresholds) that performs `k`
iterations, the ending values satisfy exactly `minLen = minLen0 + k`,
`maxTrackError = maxTrackError0 - 0.25k`, `maxError = maxError0 - 0.25k`
with no clamping, and the thresholds pushed to the node are exactly the
unclamped values `minLen0 + i`, `maxTrackError0 - 0.25i`,
`maxError0 - 0.25i` for `i < k` (the `refineTrace` block): the decay is
determined by `k` and the initial parameters alone, for every host
environment and cancellation schedule. -/
theorem claim1_threshold_decay (env : BHost) (cp : Option Nat) (n : String)
    (ce : Rat) (mi : Nat) (base range : Rat) (m0 : Int) (t0 e0 r0 : Rat)
    (cfg : Cfg) (v2 : LoopVars) (cfg2 : Cfg) (b : Bool)
    (h : refineLoop env cp n ce mi base range mi ⟨m0, t0, e0, 0, r0⟩ cfg =
      .ok (v2, cfg2, b)) :
    v2.minLen = m0 + v2.iteration ∧
    v2.maxTrackError = t0 - v2.iteration * 0.25 ∧
    v2.maxError = e0 - v2.iteration * 0.25 ∧
    cfg2.trace = cfg.trace ++ refineTrace n m0 t0 e0 0 v2.iteration := by
  obtain ⟨k, h1, h2, h3, h4, h5⟩ :=
    refineLoop_ok_spec env cp n ce mi base range mi _ _ _ _ _ h
  simp only at h1 h2 h3 h4 h5
  have hk : k = v2.iteration := by omega
  subst hk
  exact ⟨h2, h3, h4, by simpa using h5⟩

/-- Concrete host environment where every call succeeds, the plate resolves
to "plateX", the RMSE reads 5 before any update-solve and 0 afterwards, and
camera creation adds "cam1" to the scene. -/
def envOk : BHost :=
  { initialCams := []
    nodeOk := fun _ => true
    showPanel := fun _ => .ok ()
    plate := fun _ => .ok "plateX"
    trackFeatures := fun _ => .ok ()
    trackCountOk := fun _ => true
    solveCamera := fun _ => .ok ()
    readRMSE := fun _ k => .ok (if k = 0 then 5 else 0)
    setMinLen := fun _ _ => .ok ()
    setMaxRMSE := fun _ _ => .ok ()
    setMaxErr := fun _ _ => .ok ()
    deleteRejected := fun _ => .ok ()
    deleteInvalid := fun _ => .ok ()
    readRefFrames := fun _ => .ok ()
    setSelectedFrames := fun _ => .ok ()
    doUpdateSolve := fun _ => .ok ()
    createCam := fun _ cams => .ok (cams ++ ["cam1"])
    renameCam := fun _ _ => .ok () }

/-- The empty worker state used by concrete evaluations. -/
def cfg0 : Cfg := ⟨0, [], [], [], []⟩

/-- Ending loop variables of the one-iteration witness run. -/
def vW1 : LoopVars := ⟨4, 3.75, 3.75, 1, 0⟩

/-- Ending worker state of the one-iteration witness run. -/
def cfgW1 : Cfg :=
  ⟨1,
   [.setMinLenThresh "CT" 3, .setMaxRMSEThresh "CT" 4, .setMaxErrThresh "CT" 4,
    .deleteRejected "CT", .deleteInvalid "CT", .readRefFrames "CT",
    .setSelectedFrames "CT", .doUpdateSolve "CT", .readRMSE "CT" 1],
   [.progress 0], [], []⟩

theorem claim1_witness :
    refineLoop envOk none "CT" 1 1 0 0 1 ⟨3, 4, 4, 0, 5⟩ cfg0 =
      .ok (vW1, cfgW1, false) ∧
    (vW1.minLen = 3 + vW1.iteration ∧
     vW1.maxTrackError = 4 - vW1.iteration * 0.25 ∧
     vW1.maxError = 4 - vW1.iteration * 0.25 ∧
     cfgW1.trace = cfg0.trace ++ refineTrace "CT" 3 4 4 0 vW1.iteration) :=
  have h0 : refineLoop envOk none "CT" 1 1 0 0 1 ⟨3, 4, 4, 0, 5⟩ cfg0 =
      .ok (vW1, cfgW1, false) := by
    norm_num [refineLoop, hostOp, updateSolveStep, envOk, cfg0, vW1, cfgW1, isCanc]
  ⟨h0,
   claim1_threshold_decay envOk none "CT" 1 1 0 0 3 4 4 5 cfg0 vW1 cfgW1 false h0⟩

/-- Characterization of the while loop when every host call succeeds, the
RMSE reads follow `r`, cancellation is never requested, and every read up
to the iteration cap stays at or above the target: the loop runs all of its
remaining iterations and its outcome is fully determined. -/
theorem refineLoop_allOk (env : BHost) (n : String) (ce : Rat) (mi : Nat)
    (base range : Rat) (r : Nat → Rat)
    (h1 : ∀ m, env.setMinLen n m = .ok ())
    (h2 : ∀ q, env.setMaxRMSE n q = .ok ())
    (h3 : ∀ q, env.setMaxErr n q = .ok ())
    (h4 : env.deleteRejected n = .ok ())
    (h5 : env.deleteInvalid n = .ok ())
    (h6 : env.readRefFrames n = .ok ())
    (h7 : env.setSelectedFrames n = .ok ())
    (h8 : env.doUpdateSolve n = .ok ())
    (h9 : ∀ k, env.readRMSE n k = .ok (r k))
    (hge : ∀ k, k ≤ mi → ce ≤ r k) :
    ∀ (rem : Nat) (v : LoopVars) (cfg : Cfg),
      v.iteration + rem = mi →
      v.current = r v.iteration →
      refineLoop env none n ce mi base range rem v cfg =
        .ok (⟨v.minLen + rem, v.maxTrackError - rem * 0.25,
              v.maxError - rem * 0.25, v.iteration + rem, r (v.iteration + rem)⟩,
             { cfg with
                 tick := cfg.tick + rem,
                 trace := cfg.trace ++
                   refineTrace n v.minLen v.maxTrackError v.maxError v.iteration rem,
                 events := cfg.events ++ loopProgressEvents base range mi v.iteration rem },
             false) := by
  intro rem
  induction rem with
  | zero =>
    intro v cfg hit hcur
    simp [refineLoop, refineTrace, loopProgressEvents, ← hcur]
  | succ rem ih =>
    intro v cfg hit hcur
    have hce : ce ≤ v.current := by
      rw [hcur]
      exact hge v.iteration (by omega)
    have hrec := fun cfg' => ih
      ⟨v.minLen + 1, v.maxTrackError - 0.25, v.maxError - 0.25,
       v.iteration + 1, r (v.iteration + 1)⟩ cfg' (by simp; omega) rfl
    simp only [refineLoop, if_pos hce, isCanc, hostOp, updateSolveStep,
      h1, h2, h3, h4, h5, h6, h7, h8, h9, hrec, Bool.false_eq_true, if_false]
    simp only [Except.ok.injEq, Prod.mk.injEq, LoopVars.mk.injEq, Cfg.mk.injEq]
    repeat' apply And.intro
    all_goals first
      | rfl
      | omega
      | (congr 1; omega)
      | (simp only [refineTrace, loopProgressEvents, List.append_assoc,
            List.cons_append, List.singleton_append, List.nil_append]; done)
      | (push_cast; ring)

/-- The progress events emitted by loop iterations are progress events. -/
theorem loopProgressEvents_all_isProgress (base range : Rat) (mi : Nat) :
    ∀ k it, (loopProgressEvents base range mi it k).all isProgress = true := by
  intro k
  induction k with
  | zero => intro it; simp [loopProgressEvents]
  | succ k ih => intro it; simp [loopProgressEvents, isProgress, ih]

/-- C2: in a run of the refinement step where every host call succeeds,
cancellation is never requested, and every RMSE read up to the iteration
cap stays at or above `controlError` (the target is never reached), the
loop body executes exactly `max_iter` times (the trace gains exactly the
`max_iter` iteration blocks of `refineTrace`, bracketed by the entry and
final RMSE reads), the run returns normally (no exception, hence no error
event can be emitted for it), the outcome is the logged warning
`targetNotAchieved`, and the only events emitted are progress events. -/
theorem claim2_cap_warning (env : BHost) (p : TrackParams) (n : String)
    (base range : Rat) (cfg : Cfg) (r : Nat → Rat)
    (h1 : ∀ m, env.setMinLen n m = .ok ())
    (h2 : ∀ q, env.setMaxRMSE n q = .ok ())
    (h3 : ∀ q, env.setMaxErr n q = .ok ())
    (h4 : env.deleteRejected n = .ok ())
    (h5 : env.deleteInvalid n = .ok ())
    (h6 : env.readRefFrames n = .ok ())
    (h7 : env.setSelectedFrames n = .ok ())
    (h8 : env.doUpdateSolve n = .ok ())
    (h9 : ∀ k, env.readRMSE n k = .ok (r k))
    (hge : ∀ k, k ≤ p.max_iter → p.controlError ≤ r k) :
    updateSolveRecursive env none p n base range cfg =
      .ok { cfg with
              tick := cfg.tick + p.max_iter,
              trace := cfg.trace ++ (HCall.readRMSE n 0 ::
                (refineTrace n p.minLen p.maxTrackError p.maxError 0 p.max_iter ++
                 [HCall.readRMSE n p.max_iter])),
              events := cfg.events ++
                (loopProgressEvents base range p.max_iter 0 p.max_iter ++
                 [UEvent.progress (base + range)]),
              warns := cfg.warns ++
                [WarnKind.targetNotAchieved (r p.max_iter) p.controlError] } ∧
    (loopProgressEvents base range p.max_iter 0 p.max_iter ++
      [UEvent.progress (base + range)]).all isProgress = true := by
  have hloop := fun cfg' => refineLoop_allOk env n p.controlError p.max_iter
    base range r h1 h2 h3 h4 h5 h6 h7 h8 h9 hge p.max_iter
    ⟨p.minLen, p.maxTrackError, p.maxError, 0, r 0⟩ cfg' (by simp) rfl
  constructor
  · simp only [updateSolveRecursive, h9, hloop, Nat.zero_add]
    rw [if_neg (not_lt.mpr (hge p.max_iter le_rfl))]
    simp [Cfg.mk.injEq, List.append_assoc]
  · simp [List.all_append, loopProgressEvents_all_isProgress, isProgress]

/-- Host environment whose RMSE reads always return 5 (target never
reached) and where every call succeeds. -/
def envHigh : BHost := { envOk with readRMSE := fun _ _ => .ok 5 }

/-- RMSE read sequence of `envHigh`. -/
def rHigh : Nat → Rat := fun _ => 5

/-- Parameters with target RMSE 1 and a one-iteration cap. -/
def p2 : TrackParams := ⟨["CT"], 3, 4, 4, 1, 1, "cam_", true⟩

theorem claim2_witness :
    (∀ k, k ≤ p2.max_iter → p2.controlError ≤ rHigh k) ∧
    (updateSolveRecursive envHigh none p2 "CT" 0 0 cfg0 =
      .ok { cfg0 with
              tick := cfg0.tick + p2.max_iter,
              trace := cfg0.trace ++ (HCall.readRMSE "CT" 0 ::
                (refineTrace "CT" p2.minLen p2.maxTrackError p2.maxError 0 p2.max_iter ++
                 [HCall.readRMSE "CT" p2.max_iter])),
              events := cfg0.events ++
                (loopProgressEvents 0 0 p2.max_iter 0 p2.max_iter ++
                 [UEvent.progress (0 + 0)]),
              warns := cfg0.warns ++
                [WarnKind.targetNotAchieved (rHigh p2.max_iter) p2.controlError] } ∧
     (loopProgressEvents 0 0 p2.max_iter 0 p2.max_iter ++
       [UEvent.progress (0 + 0)]).all isProgress = true) :=
  have hge : ∀ k, k ≤ p2.max_iter → p2.controlError ≤ rHigh k := fun k _ => by
    norm_num [rHigh, p2]
  ⟨hge,
   claim2_cap_warning envHigh p2 "CT" 0 0 cfg0 rHigh
     (fun _ => rfl) (fun _ => rfl) (fun _ => rfl) rfl rfl rfl rfl rfl
     (fun _ => rfl) hge⟩

/-- C6: when `max_iter = 0` the refinement loop executes its body zero
times (the only host calls of the refinement step are the entry RMSE read
and the final RMSE read, both at update-solve count 0) and the final
reported RMSE is the initial RMSE `r0` read before the loop (it is the
value carried by the final status, whether target-reached or the
`targetNotAchieved` warning). -/
theorem claim6_zero_iter (env : BHost) (cp : Option Nat) (p : TrackParams)
    (n : String) (base range : Rat) (cfg : Cfg) (r0 : Rat)
    (hmi : p.max_iter = 0)
    (hr : env.readRMSE n 0 = .ok r0) :
    updateSolveRecursive env cp p n base range cfg =
      .ok { cfg with
              trace := cfg.trace ++ [HCall.readRMSE n 0, HCall.readRMSE n 0],
              events := cfg.events ++ [UEvent.progress (base + range)],
              warns := cfg.warns ++
                (if r0 < p.controlError then []
                 else [WarnKind.targetNotAchieved r0 p.controlError]) } := by
  simp only [updateSolveRecursive, hr, hmi, refineLoop]
  by_cases h : r0 < p.controlError
  · simp [h, Cfg.mk.injEq]
  · simp [h, Cfg.mk.injEq]

theorem claim6_witness :
    ({ p2 with max_iter := 0 } : TrackParams).max_iter = 0 ∧
    envOk.readRMSE "CT" 0 = .ok 5 ∧
    updateSolveRecursive envOk none { p2 with max_iter := 0 } "CT" 0 0 cfg0 =
      .ok { cfg0 with
              trace := cfg0.trace ++ [HCall.readRMSE "CT" 0, HCall.readRMSE "CT" 0],
              events := cfg0.events ++ [UEvent.progress (0 + 0)],
              warns := cfg0.warns ++
                (if (5:Rat) < ({ p2 with max_iter := 0 } : TrackParams).controlError then []
                 else [WarnKind.targetNotAchieved 5
                         ({ p2 with max_iter := 0 } : TrackParams).controlError]) } :=
  ⟨rfl, rfl,
   claim6_zero_iter envOk none { p2 with max_iter := 0 } "CT" 0 0 cfg0 5 rfl rfl⟩

/-- C10: if the RMSE read before the refinement loop starts is strictly
below `controlError`, the loop performs zero iterations and the refinement
step issues no further host calls besides the final RMSE read: in
particular it never writes `minLengthThreshold` / `maxRMSEThreshold` /
`maxErrorThreshold` and never triggers the delete-rejected or
delete-invalid operations, leaving the node's filter state unchanged. -/
theorem claim10_below_target_no_writes (env : BHost) (cp : Option Nat)
    (p : TrackParams) (n : String) (base range : Rat) (cfg : Cfg) (r0 : Rat)
    (hr : env.readRMSE n 0 = .ok r0)
    (hlt : r0 < p.controlError) :
    updateSolveRecursive env cp p n base range cfg =
      .ok { cfg with
              trace := cfg.trace ++ [HCall.readRMSE n 0, HCall.readRMSE n 0],
              events := cfg.events ++ [UEvent.progress (base + range)] } := by
  have hnot : ¬ p.controlError ≤ r0 := not_le.mpr hlt
  simp only [updateSolveRecursive, hr]
  cases hmi : p.max_iter with
  | zero =>
    simp only [refineLoop]
    simp [hr, if_pos hlt, Cfg.mk.injEq]
  | succ m =>
    simp only [refineLoop, if_neg hnot]
    simp [hr, if_pos hlt, Cfg.mk.injEq]

/-- Parameters whose target RMSE 10 is already met by `envOk`'s initial
read of 5. -/
def p10 : TrackParams := ⟨["CT"], 3, 4, 4, 10, 5, "cam_", true⟩

theorem claim10_witness :
    envOk.readRMSE "CT" 0 = .ok 5 ∧ (5:Rat) < p10.controlError ∧
    updateSolveRecursive envOk none p10 "CT" 0 0 cfg0 =
      .ok { cfg0 with
              trace := cfg0.trace ++ [HCall.readRMSE "CT" 0, HCall.readRMSE "CT" 0],
              events := cfg0.events ++ [UEvent.progress (0 + 0)] } :=
  have hlt : (5:Rat) < p10.controlError := by norm_num [p10]
  ⟨rfl, hlt,
   claim10_below_target_no_writes envOk none p10 "CT" 0 0 cfg0 5 rfl hlt⟩

/-- C5: for every per-node run reaching camera creation, the newly created
camera is identified as the set difference between the camera sets after
and before the create-camera host operation (the filtered list has exactly
that set of elements); when the difference is non-empty, the element the
code picks from it is renamed to `cameraPrefix + plateName`; when the
after-set equals the before-set, no camera is renamed (the trace ends at
the second snapshot) and the no-new-camera warning is reported. -/
theorem claim5_new_camera (env : BHost) (p : TrackParams) (n plate : String)
    (base range : Rat) (cfg : Cfg) (camsAfter : List String)
    (hcr : env.createCam n cfg.cams = .ok camsAfter)
    (hrn : ∀ c nm, env.renameCam c nm = .ok ()) :
    ((camsAfter.filter fun c => !(cfg.cams.contains c)).toFinset =
        camsAfter.toFinset \ cfg.cams.toFinset) ∧
    (∀ cam rest,
      camsAfter.filter (fun c => !(cfg.cams.contains c)) = cam :: rest →
      cam ∈ camsAfter.toFinset \ cfg.cams.toFinset ∧
      createAndRename env p n plate base range cfg =
        .ok { cfg with
                trace := cfg.trace ++
                  [HCall.allCameras, HCall.createCamera n, HCall.allCameras,
                   HCall.renameCamera cam (p.cameraPrefix ++ plate)],
                cams := camsAfter.map fun c =>
                  if c = cam then p.cameraPrefix ++ plate else c,
                events := cfg.events ++ [UEvent.progress (base + range)] }) ∧
    (camsAfter.toFinset = cfg.cams.toFinset →
      createAndRename env p n plate base range cfg =
        .ok { cfg with
                trace := cfg.trace ++
                  [HCall.allCameras, HCall.createCamera n, HCall.allCameras],
                cams := camsAfter,
                warns := cfg.warns ++ [WarnKind.noNewCamera] }) := by
  refine ⟨?_, ?_, ?_⟩
  · ext x
    simp [List.mem_filter, Finset.mem_sdiff]
  · intro cam rest hfil
    constructor
    · have hmem : cam ∈ camsAfter.filter (fun c => !(cfg.cams.contains c)) := by
        rw [hfil]
        exact List.mem_cons_self _ _
      have h2 := List.mem_filter.mp hmem
      obtain ⟨hin, hnc⟩ := h2
      simp only [Bool.not_eq_true'] at hnc
      simp at hnc
      simp [Finset.mem_sdiff, hin, hnc]
    · simp only [createAndRename, hcr, hfil, hrn]
      simp [List.append_assoc, Cfg.mk.injEq]
  · intro hset
    have hfil : camsAfter.filter (fun c => !(cfg.cams.contains c)) = [] := by
      rw [List.filter_eq_nil_iff]
      intro a ha
      have : a ∈ cfg.cams := by
        have : a ∈ camsAfter.toFinset := List.mem_toFinset.mpr ha
        rw [hset] at this
        exact List.mem_toFinset.mp this
      simp [this]
    simp only [createAndRename, hcr, hfil]
    simp [List.append_assoc, Cfg.mk.injEq]

/-- Worker state with two cameras (`camA`, `camB`) in the scene. -/
def cfg5 : Cfg := ⟨0, [], [], [], ["camA", "camB"]⟩

/-- Host whose create-camera call adds `camC` to the scene. -/
def env5 : BHost := { envOk with createCam := fun _ cams => .ok (cams ++ ["camC"]) }

theorem claim5_witness :
    (["camA", "camB", "camC"] : List String).filter
        (fun c => !(cfg5.cams.contains c)) = ["camC"] ∧
    ("camC" ∈ (["camA", "camB", "camC"] : List String).toFinset \ cfg5.cams.toFinset ∧
     createAndRename env5 p2 "CT" "plate1" 0 0 cfg5 =
       .ok { cfg5 with
               trace := cfg5.trace ++
                 [HCall.allCameras, HCall.createCamera "CT", HCall.allCameras,
                  HCall.renameCamera "camC" (p2.cameraPrefix ++ "plate1")],
               cams := (["camA", "camB", "camC"] : List String).map fun c =>
                 if c = "camC" then p2.cameraPrefix ++ "plate1" else c,
               events := cfg5.events ++ [UEvent.progress (0 + 0)] }) :=
  ⟨by decide,
   (claim5_new_camera env5 p2 "CT" "plate1" 0 0 cfg5 ["camA", "camB", "camC"]
      rfl (fun _ _ => rfl)).2.1 "camC" [] (by decide)⟩

/- ## Claim C3 -/

/-- Parameters selecting the single node `CT1`. -/
def p3 : TrackParams := ⟨["CT1"], 3, 4, 4, 1, 5, "cam_", true⟩

/-- C3 (evaluation of the code at the failing input): a batch of one node
with cancellation requested during that node's processing (the flag is
observed at the checkpoint before feature tracking, check index 1).  The
worker does halt before the next host call (the trace stops after the
plate-name read) and processes no further steps, but the batch then
finishes its node loop and emits `tracking_complete(True, "Successfully
processed 1 camera tracker(s)")` — there is no `success=False`
cancellation completion, contradicting the claimed (and spec-intended)
cancellation report. -/
theorem claim3_cancel_last_node_eval :
    runWorker envOk (some 1) p3 =
      ⟨2, [.toNode "CT1", .showPanel "CT1", .tclPlate "CT1"],
       [.progress 0, .complete true "Successfully processed 1 camera tracker(s)"],
       [], []⟩ ∧
    hasFalseComplete (runWorker envOk (some 1) p3).events = false ∧
    hasTrueComplete (runWorker envOk (some 1) p3).events = true := by
  have h : runWorker envOk (some 1) p3 =
      ⟨2, [.toNode "CT1", .showPanel "CT1", .tclPlate "CT1"],
       [.progress 0, .complete true "Successfully processed 1 camera tracker(s)"],
       [], []⟩ := by
    norm_num [runWorker, runNodes, processCameraTracker, checkCancel, isCanc,
      envOk, p3, hostOp, andThen, Cfg.mk.injEq]
    decide
  refine ⟨h, ?_, ?_⟩ <;> rw [h] <;> decide

/- ## Claim C4 -/

/-- Host like `envOk` except the plate-name read raises and the solve is
already below target (RMSE 0). -/
def envP : BHost :=
  { envOk with plate := fun _ => .error (), readRMSE := fun _ _ => .ok 0 }

/-- C4 counterexample: the plate-name lookup is a host-API call made during
per-node processing and it raises in `envP`, yet the node's run is NOT
aborted: no error event is emitted, processing continues through camera
creation, and the batch completes with `success=True`.  This refutes the
claim for guarded host calls (the code wraps the plate-name, track-count
and initial-RMSE reads in local try/except handlers). -/
theorem claim4_counterexample :
    envP.plate "CT1" = .error () ∧
    runWorker envP none p3 =
      ⟨5,
       [.toNode "CT1", .showPanel "CT1", .tclPlate "CT1", .trackFeatures "CT1",
        .readTracks "CT1", .solveCamera "CT1", .readRMSE "CT1" 0,
        .readRMSE "CT1" 0, .readRMSE "CT1" 0, .allCameras, .createCamera "CT1",
        .allCameras, .renameCamera "cam1" "cam_CT1"],
       [.progress 0, .progress 20, .progress 40, .progress 50, .progress 80,
        .progress 90, .progress 100,
        .complete true "Successfully processed 1 camera tracker(s)"],
       [.noPlateName "CT1"], ["cam_CT1"]⟩ ∧
    HCall.tclPlate "CT1" ∈ (runWorker envP none p3).trace ∧
    HCall.createCamera "CT1" ∈ (runWorker envP none p3).trace ∧
    hasErrorEvent (runWorker envP none p3).events = false ∧
    hasTrueComplete (runWorker envP none p3).events = true := by
  have h : runWorker envP none p3 =
      ⟨5,
       [.toNode "CT1", .showPanel "CT1", .tclPlate "CT1", .trackFeatures "CT1",
        .readTracks "CT1", .solveCamera "CT1", .readRMSE "CT1" 0,
        .readRMSE "CT1" 0, .readRMSE "CT1" 0, .allCameras, .createCamera "CT1",
        .allCameras, .renameCamera "cam1" "cam_CT1"],
       [.progress 0, .progress 20, .progress 40, .progress 50, .progress 80,
        .progress 90, .progress 100,
        .complete true "Successfully processed 1 camera tracker(s)"],
       [.noPlateName "CT1"], ["cam_CT1"]⟩ := by
    norm_num [runWorker, runNodes, processCameraTracker, createAndRename,
      updateSolveRecursive, refineLoop, checkCancel, isCanc, envP, envOk, p3,
      hostOp, andThen, Cfg.mk.injEq]
    decide
  refine ⟨rfl, h, ?_, ?_, ?_, ?_⟩ <;> rw [h] <;> decide

/-- Events carried by a per-node processing outcome (the state at the
raise point for exceptions). -/
def exceptEvents : Except (String × Cfg) Cfg → List UEvent
  | .ok c => c.events
  | .error ec => ec.2.events

/-- Events carried by a loop outcome. -/
def loopEvents : Except (String × Cfg) (LoopVars × Cfg × Bool) → List UEvent
  | .ok (_, c, _) => c.events
  | .error ec => ec.2.events

/-- Appending a progress event never introduces a `complete true` event. -/
theorem hasTrueComplete_append_progress (l : List UEvent) (x : Rat) :
    hasTrueComplete (l ++ [UEvent.progress x]) = hasTrueComplete l := by
  simp [hasTrueComplete, List.any_append]

/-- Appending an error event never introduces a `complete true` event. -/
theorem hasTrueComplete_append_error (l : List UEvent) (t m : String) :
    hasTrueComplete (l ++ [UEvent.error t m]) = hasTrueComplete l := by
  simp [hasTrueComplete, List.any_append]

/-- The while loop emits only progress events: it cannot introduce a
completion event, whether it returns or raises. -/
theorem refineLoop_noComplete (env : BHost) (cp : Option Nat) (n : String)
    (ce : Rat) (mi : Nat) (base range : Rat) :
    ∀ (rem : Nat) (v : LoopVars) (cfg : Cfg),
      hasTrueComplete (loopEvents (refineLoop env cp n ce mi base range rem v cfg)) =
        hasTrueComplete cfg.events := by
  intro rem
  induction rem with
  | zero => intro v cfg; simp [refineLoop, loopEvents]
  | succ rem ih =>
    intro v cfg
    by_cases hce : ce ≤ v.current
    · cases hcanc : isCanc cp cfg.tick with
      | true => simp [refineLoop, if_pos hce, hcanc, loopEvents]
      | false =>
        cases hx1 : env.setMinLen n v.minLen with
        | error e => simp [refineLoop, if_pos hce, hcanc, hostOp, hx1, loopEvents]
        | ok u1 =>
        cases hx2 : env.setMaxRMSE n v.maxTrackError with
        | error e => simp [refineLoop, if_pos hce, hcanc, hostOp, hx1, hx2, loopEvents]
        | ok u2 =>
        cases hx3 : env.setMaxErr n v.maxError with
        | error e => simp [refineLoop, if_pos hce, hcanc, hostOp, hx1, hx2, hx3, loopEvents]
        | ok u3 =>
        cases hx4 : env.deleteRejected n with
        | error e =>
          simp [refineLoop, if_pos hce, hcanc, hostOp, hx1, hx2, hx3, hx4, loopEvents]
        | ok u4 =>
        cases hx5 : env.deleteInvalid n with
        | error e =>
          simp [refineLoop, if_pos hce, hcanc, hostOp, hx1, hx2, hx3, hx4, hx5, loopEvents]
        | ok u5 =>
        cases hx6 : env.readRefFrames n with
        | error e =>
          simp [refineLoop, if_pos hce, hcanc, hostOp, updateSolveStep,
            hx1, hx2, hx3, hx4, hx5, hx6, loopEvents]
        | ok u6 =>
        cases hx7 : env.setSelectedFrames n with
        | error e =>
          simp [refineLoop, if_pos hce, hcanc, hostOp, updateSolveStep,
            hx1, hx2, hx3, hx4, hx5, hx6, hx7, loopEvents]
        | ok u7 =>
        cases hx8 : env.doUpdateSolve n with
        | error e =>
          simp [refineLoop, if_pos hce, hcanc, hostOp, updateSolveStep,
            hx1, hx2, hx3, hx4, hx5, hx6, hx7, hx8, loopEvents]
        | ok u8 =>
        cases hx9 : env.readRMSE n (v.iteration + 1) with
        | error e =>
          simp [refineLoop, if_pos hce, hcanc, hostOp, updateSolveStep,
            hx1, hx2, hx3, hx4, hx5, hx6, hx7, hx8, hx9, loopEvents]
        | ok newRmse =>
          simp only [refineLoop, if_pos hce, hcanc, Bool.false_eq_true, if_false,
            hostOp, updateSolveStep, hx1, hx2, hx3, hx4, hx5, hx6, hx7, hx8, hx9]
          rw [ih]
          simp [hasTrueComplete, List.any_append]
    · simp [refineLoop, if_neg hce, loopEvents]

/-- `andThen` preserves the absence of a `complete true` event. -/
theorem andThen_noComplete {b : Bool} (g : Except (String × Cfg) Cfg)
    (f : Cfg → Except (String × Cfg) Cfg)
    (hg : hasTrueComplete (exceptEvents g) = b)
    (hf : ∀ c, hasTrueComplete c.events = b →
      hasTrueComplete (exceptEvents (f c)) = b) :
    hasTrueComplete (exceptEvents (andThen g f)) = b := by
  cases g with
  | error ec => simpa [andThen, exceptEvents] using hg
  | ok c => exact hf c (by simpa [exceptEvents] using hg)

/-- The refinement step emits only progress events: it cannot introduce a
completion event, whether it returns or raises. -/
theorem updateSolveRecursive_noComplete (env : BHost) (cp : Option Nat)
    (p : TrackParams) (n : String) (base range : Rat) (cfg : Cfg) :
    hasTrueComplete (exceptEvents (updateSolveRecursive env cp p n base range cfg)) =
      hasTrueComplete cfg.events := by
  cases hr : env.readRMSE n 0 with
  | error e => simp [updateSolveRecursive, hr, exceptEvents]
  | ok r0 =>
    have hloop := refineLoop_noComplete env cp n p.controlError p.max_iter base range
      p.max_iter ⟨p.minLen, p.maxTrackError, p.maxError, 0, r0⟩
      { cfg with trace := cfg.trace ++ [HCall.readRMSE n 0] }
    cases hres : refineLoop env cp n p.controlError p.max_iter base range p.max_iter
        ⟨p.minLen, p.maxTrackError, p.maxError, 0, r0⟩
        { cfg with trace := cfg.trace ++ [HCall.readRMSE n 0] } with
    | error ec =>
      rw [hres] at hloop
      simp only [loopEvents] at hloop
      simp only [updateSolveRecursive, hr, hres, exceptEvents]
      simpa using hloop
    | ok t =>
      obtain ⟨v, cfg2, b⟩ := t
      rw [hres] at hloop
      simp only [loopEvents] at hloop
      cases b with
      | true =>
        simp only [updateSolveRecursive, hr, hres, exceptEvents]
        exact hloop
      | false =>
        cases hfr : env.readRMSE n v.iteration with
        | error e2 =>
          simp only [updateSolveRecursive, hr, hres, hfr, exceptEvents]
          exact hloop
        | ok fr =>
          simp only [updateSolveRecursive, hr, hres, hfr]
          by_cases hlt : fr < p.controlError
          · simp only [if_pos hlt, exceptEvents]
            rw [hasTrueComplete_append_progress]
            exact hloop
          · simp only [if_neg hlt, exceptEvents]
            rw [hasTrueComplete_append_progress]
            exact hloop

/-- Camera creation emits only progress events: it cannot introduce a
completion event, whether it returns or raises. -/
theorem createAndRename_noComplete (env : BHost) (p : TrackParams)
    (n plate : String) (base range : Rat) (cfg : Cfg) :
    hasTrueComplete (exceptEvents (createAndRename env p n plate base range cfg)) =
      hasTrueComplete cfg.events := by
  cases hcr : env.createCam n cfg.cams with
  | error e => simp [createAndRename, hcr, exceptEvents]
  | ok camsAfter =>
    cases hfil : camsAfter.filter (fun c => !(cfg.cams.contains c)) with
    | nil => simp only [createAndRename, hcr, hfil, exceptEvents]
    | cons cam rest =>
      cases hrn : env.renameCam cam (p.cameraPrefix ++ plate) with
      | error e => simp only [createAndRename, hcr, hfil, hrn, exceptEvents]
      | ok u =>
        simp only [createAndRename, hcr, hfil, hrn, exceptEvents]
        rw [hasTrueComplete_append_progress]

/-- Per-node processing emits only progress events and logged warnings: it
cannot introduce a completion event, whether it returns or raises. -/
theorem processCameraTracker_noComplete (env : BHost) (cp : Option Nat)
    (p : TrackParams) (n : String) (base range : Rat) (cfg : Cfg) :
    hasTrueComplete (exceptEvents (processCameraTracker env cp p n base range cfg)) =
      hasTrueComplete cfg.events := by
  cases hx1 : env.showPanel n with
  | error e => simp [processCameraTracker, hostOp, hx1, exceptEvents]
  | ok u1 =>
  cases hpl : env.plate n
  all_goals (
    cases hc1 : isCanc cp cfg.tick with
    | true =>
      simp [processCameraTracker, hostOp, hx1, hpl, checkCancel, hc1, exceptEvents]
    | false =>
    cases hx2 : env.trackFeatures n with
    | error e =>
      simp [processCameraTracker, hostOp, hx1, hpl, checkCancel, hc1, hx2,
        exceptEvents, hasTrueComplete, List.any_append]
    | ok u2 =>
    cases htc : env.trackCountOk n
    all_goals (
      cases hc2 : isCanc cp (cfg.tick + 1) with
      | true =>
        simp [processCameraTracker, hostOp, hx1, hpl, checkCancel, hc1, hx2, htc,
          hc2, exceptEvents, hasTrueComplete, List.any_append]
      | false =>
      cases hx3 : env.solveCamera n with
      | error e =>
        simp [processCameraTracker, hostOp, hx1, hpl, checkCancel, hc1, hx2, htc,
          hc2, hx3, exceptEvents, hasTrueComplete, List.any_append]
      | ok u3 =>
      cases hr0 : env.readRMSE n 0
      all_goals (
        cases hc3 : isCanc cp (cfg.tick + 2) with
        | true =>
          simp [processCameraTracker, hostOp, hx1, hpl, checkCancel, hc1, hx2, htc,
            hc2, hx3, hr0, hc3, exceptEvents, hasTrueComplete, List.any_append]
        | false =>
        simp only [processCameraTracker, hostOp, hx1, hpl, checkCancel, hc1, hx2,
          htc, hc2, hx3, hr0, hc3, Bool.false_eq_true, if_false, if_true,
          eq_self_iff_true]
        apply andThen_noComplete
        · rw [updateSolveRecursive_noComplete]
          simp [hasTrueComplete, List.any_append]
        · intro c hc
          cases hc4 : isCanc cp c.tick with
          | true => simpa [checkCancel, hc4, exceptEvents] using hc
          | false =>
            simp only [checkCancel, hc4, Bool.false_eq_true, if_false, if_true,
              eq_self_iff_true]
            rw [createAndRename_noComplete]
            simp only
            rw [hasTrueComplete_append_progress]
            exact hc)))

/-- C4 (amended): any exception escaping a node's per-node processing — any
unguarded host-API call raising; the plate-name, track-count and
initial-RMSE reads are locally guarded and do not abort (see the
counterexample) — aborts that node's run: the per-node error event carrying
the node's context is emitted as the final event, the batch stops (the
result does not depend on `rest`, so no host call is made for any
subsequent node), and no completion event with `success=True` is emitted
for the batch. -/
theorem claim4_amended (env : BHost) (cp : Option Nat) (p : TrackParams)
    (total idx : Nat) (n : String) (rest : List String) (cfg cfgE : Cfg)
    (e : String)
    (hc : isCanc cp cfg.tick = false)
    (hn : env.nodeOk n = true)
    (hp : processCameraTracker env cp p n (((idx : Rat) / (total : Rat)) * 100)
        (100 / (total : Rat))
        { cfg with
            tick := cfg.tick + 1,
            trace := cfg.trace ++ [HCall.toNode n],
            events := cfg.events ++
              [UEvent.progress (((idx : Rat) / (total : Rat)) * 100)] } =
      .error (e, cfgE)) :
    runNodes env cp p total idx (n :: rest) cfg =
      { cfgE with events := cfgE.events ++
          [UEvent.error ("Error processing " ++ n)
            ("Failed to process camera tracker:\n\n" ++ e)] } ∧
    hasTrueComplete (runNodes env cp p total idx (n :: rest) cfg).events =
      hasTrueComplete cfg.events := by
  have heq : runNodes env cp p total idx (n :: rest) cfg =
      { cfgE with events := cfgE.events ++
          [UEvent.error ("Error processing " ++ n)
            ("Failed to process camera tracker:\n\n" ++ e)] } := by
    simp only [runNodes, checkCancel, hc, hn, Bool.false_eq_true, if_false,
      if_true, eq_self_iff_true, hp]
  refine ⟨heq, ?_⟩
  rw [heq]
  have hpe := processCameraTracker_noComplete env cp p n
    (((idx : Rat) / (total : Rat)) * 100) (100 / (total : Rat))
    { cfg with
        tick := cfg.tick + 1,
        trace := cfg.trace ++ [HCall.toNode n],
        events := cfg.events ++
          [UEvent.progress (((idx : Rat) / (total : Rat)) * 100)] }
  rw [hp] at hpe
  simp only [exceptEvents] at hpe
  rw [hasTrueComplete_append_progress] at hpe
  simp only
  rw [hasTrueComplete_append_error, hpe]

/-- Host like `envOk` whose feature-tracking call (an unguarded host call)
raises "boom". -/
def envT : BHost := { envOk with trackFeatures := fun _ => .error "boom" }

/-- State at the raise point of the witness run for C4. -/
def cfgEW : Cfg :=
  ⟨2, [.toNode "CT1", .showPanel "CT1", .tclPlate "CT1", .trackFeatures "CT1"],
   [.progress 0, .progress 20], [], []⟩

theorem claim4_witness :
    (isCanc none cfg0.tick = false) ∧
    (envT.nodeOk "CT1" = true) ∧
    (processCameraTracker envT none p3 "CT1"
        ((((0:Nat) : Rat) / ((1:Nat) : Rat)) * 100) (100 / ((1:Nat) : Rat))
        { cfg0 with
            tick := cfg0.tick + 1,
            trace := cfg0.trace ++ [HCall.toNode "CT1"],
            events := cfg0.events ++
              [UEvent.progress ((((0:Nat) : Rat) / ((1:Nat) : Rat)) * 100)] } =
      .error ("boom", cfgEW)) ∧
    (runNodes envT none p3 1 0 ["CT1"] cfg0 =
      { cfgEW with events := cfgEW.events ++
          [UEvent.error ("Error processing " ++ "CT1")
            ("Failed to process camera tracker:\n\n" ++ "boom")] } ∧
     hasTrueComplete (runNodes envT none p3 1 0 ["CT1"] cfg0).events =
       hasTrueComplete cfg0.events) := by
  have hp : processCameraTracker envT none p3 "CT1"
      ((((0:Nat) : Rat) / ((1:Nat) : Rat)) * 100) (100 / ((1:Nat) : Rat))
      { cfg0 with
          tick := cfg0.tick + 1,
          trace := cfg0.trace ++ [HCall.toNode "CT1"],
          events := cfg0.events ++
            [UEvent.progress ((((0:Nat) : Rat) / ((1:Nat) : Rat)) * 100)] } =
      .error ("boom", cfgEW) := by
    norm_num [processCameraTracker, hostOp, checkCancel, isCanc, envT, envOk, p3,
      cfg0, cfgEW, Cfg.mk.injEq]
  exact ⟨rfl, rfl, hp,
    claim4_amended envT none p3 1 0 "CT1" [] cfg0 cfgEW "boom" rfl rfl hp⟩
